import Mathlib

/-!
Verification of the Source-engine client networking core (se-rust-client).

This file shallowly embeds the Rust sources under `src/src/source/` into Lean:

* `bitbuf.rs`   — the little-endian bit reader and the Source varint32 codec;
* `lzss.rs`     — the LZSS decoder;
* `ice.rs`      — the ICE block cipher (key schedule, Feistel rounds, buffers);
* `subchannel.rs` — reliable fragment reassembly;
* `channel.rs`  — NetChannel datagram framing, encryption wrap and sequencing.

Machine integers are modelled as `Nat` with explicit `% 2^w` at the points
where the Rust code can wrap (release-profile semantics: arithmetic overflow
on `u32`/`usize` wraps).  Fallible operations return `Option`/`Except`.
`panic!` and out-of-bounds slice accesses in the Rust code are modelled as
distinguished `Err.panic*` constructors, separate from recoverable errors.
Loops whose iteration count is bounded by the input size are written with an
explicit fuel argument large enough for every reachable input, so that all
definitions evaluate by `decide`/`rfl`.

External collaborators (the protobuf codec behind `NetMessage::bind`, the
UTF-8 validation in `String::from_utf8`, the CRC32 of the `crc32fast`
crate) are not part of this repository; functions that consult them take an
`Ext` record of those behaviours as an explicit parameter, and theorems
quantify over it.
-/

set_option maxRecDepth 100000

namespace SeRust

/-! ## Generic bit-arithmetic helpers -/

/-- Disjoint bitwise-or is addition: if `a`'s low `i` bits are zero and
`b < 2^i`, then `a ||| b = a + b`. -/
theorem lor_eq_add_of_lt (a b i : Nat) (h1 : a % 2 ^ i = 0) (h2 : b < 2 ^ i) :
    a ||| b = a + b := by
  have hdvd : 2 ^ i ∣ a := Nat.dvd_of_mod_eq_zero h1
  have ha : 2 ^ i * (a / 2 ^ i) = a := Nat.mul_div_cancel' hdvd
  calc a ||| b = 2 ^ i * (a / 2 ^ i) ||| b := by rw [ha]
    _ = 2 ^ i * (a / 2 ^ i) + b := (Nat.mul_add_lt_is_or h2 _).symm
    _ = a + b := by rw [ha]

theorem and_two_pow_sub_one (x n : Nat) : x &&& (2 ^ n - 1) = x % 2 ^ n :=
  Nat.and_pow_two_sub_one_eq_mod x n

theorem and_255_eq_mod (x : Nat) : x &&& 255 = x % 256 := by
  have h : (255 : Nat) = 2 ^ 8 - 1 := rfl
  rw [h, and_two_pow_sub_one]; norm_num

theorem and_127_eq_mod (x : Nat) : x &&& 127 = x % 128 := by
  have h : (127 : Nat) = 2 ^ 7 - 1 := rfl
  rw [h, and_two_pow_sub_one]; norm_num

theorem and_two_pow_eq_zero_of_lt {x n : Nat} (h : x < 2 ^ n) : x &&& 2 ^ n = 0 := by
  apply Nat.eq_of_testBit_eq
  intro i
  simp only [Nat.testBit_and, Nat.zero_testBit, Nat.testBit_two_pow]
  by_cases hi : n = i
  · subst hi
    simp [Nat.testBit_lt_two_pow h]
  · simp [hi]

theorem and_128_eq_zero_of_lt {x : Nat} (h : x < 128) : x &&& 128 = 0 := by
  have h128 : (128 : Nat) = 2 ^ 7 := rfl
  rw [h128]
  exact and_two_pow_eq_zero_of_lt h

theorem shiftLeft_lt_pow {x a : Nat} (h : x < 2 ^ a) (b c : Nat)
    (hab : a + b ≤ c) : x <<< b < 2 ^ c := by
  rw [Nat.shiftLeft_eq]
  calc x * 2 ^ b < 2 ^ a * 2 ^ b :=
        (Nat.mul_lt_mul_right (Nat.two_pow_pos _)).mpr h
    _ = 2 ^ (a + b) := by rw [Nat.pow_add]
    _ ≤ 2 ^ c := Nat.pow_le_pow_right (by norm_num) hab

/-- `2^64`, the modulus of `usize` arithmetic. -/
def USIZE : Nat := 2 ^ 64

/-- Wrapping `usize` subtraction, release-profile Rust semantics
(defined for `a, b < 2^64`). -/
def usizeSub (a b : Nat) : Nat := (a + USIZE - b) % USIZE

end SeRust

/-! ## bitbuf.rs — little-endian bit streams and the Source varint32 -/

namespace Bitbuf

/-- One bit of a byte list, in LSB-first order within each byte
(`bitstream_io::LittleEndian` semantics). Bytes are `Nat`s `< 256`. -/
def bitAt (data : List Nat) (i : Nat) : Nat :=
  (data.getD (i / 8) 0 >>> (i % 8)) &&& 1

/-- The value of `n` bits starting at bit position `p`: the first bit read is
the least-significant bit of the result (little-endian bit accumulation). -/
def readBitsVal (data : List Nat) : Nat → Nat → Nat
  | _, 0 => 0
  | p, n + 1 => bitAt data p + 2 * readBitsVal data (p + 1) n

/-- A positioned little-endian bit reader over a byte buffer, as
`BitReader<_, LittleEndian>` over a cursor. -/
structure BitStream where
  data : List Nat
  pos : Nat
deriving DecidableEq, Repr

/-- Read `n` bits; `none` models the `UnexpectedEof` I/O error. -/
def BitStream.read (s : BitStream) (n : Nat) : Option (Nat × BitStream) :=
  if s.pos + n ≤ 8 * s.data.length then
    some (readBitsVal s.data s.pos n, ⟨s.data, s.pos + n⟩)
  else
    none

/-- `read_bit`. -/
def BitStream.readBit (s : BitStream) : Option (Bool × BitStream) :=
  match s.read 1 with
  | some (v, s') => some (v ≠ 0, s')
  | none => none

/-- The bytes delivered by `read_bytes` into a buffer of length `n`:
eight bits per byte, in order. -/
def bytesFrom (data : List Nat) : Nat → Nat → List Nat
  | _, 0 => []
  | p, n + 1 => readBitsVal data p 8 :: bytesFrom data (p + 8) n

/-- `read_bytes` into an `n`-byte buffer. -/
def BitStream.readBytes (s : BitStream) (n : Nat) : Option (List Nat × BitStream) :=
  if s.pos + 8 * n ≤ 8 * s.data.length then
    some (bytesFrom s.data s.pos n, ⟨s.data, s.pos + 8 * n⟩)
  else
    none

/-- `WireWriter::write_int32_var` (bitbuf.rs): emit 7-bit groups, low group
first, high bit of a byte = "more follows".  The Rust loop runs while
`data > 0x7F`; for a `u32` argument at most 5 bytes are emitted, so fuel 5
makes the recursion structural without changing the function on `u32`s. -/
def writeVarGo : Nat → Nat → List Nat
  | _, 0 => []
  | data, fuel + 1 =>
    if data > 0x7F then
      ((data &&& 0x7F) ||| 0x80) :: writeVarGo (data >>> 7) fuel
    else
      [data &&& 0x7F]

def write_int32_var (v : Nat) : List Nat := writeVarGo v 5

/-- `WireReader::read_int32_var` (bitbuf.rs), at byte granularity.
`res |= ((data & 0x7F) as u32) << (7*count)` is a `u32` operation, hence the
`% 2^32`.  Returns the value and the unconsumed bytes; `none` models both the
"Invalid varint32 encoding!" error (6th group) and EOF. -/
def readVarGo : List Nat → Nat → Nat → Option (Nat × List Nat)
  | bytes, res, count =>
    if count = 5 then none
    else
      match bytes with
      | [] => none
      | b :: rest =>
        let res' := res ||| ((b &&& 0x7F) <<< (7 * count)) % 2 ^ 32
        if b &&& 0x80 = 0 then some (res', rest)
        else readVarGo rest res' (count + 1)

def read_int32_var (bytes : List Nat) : Option (Nat × List Nat) :=
  readVarGo bytes 0 0

/-- §8 conformance vectors for varint32. -/
example : write_int32_var 0x00 = [0x00] := by decide
example : write_int32_var 0x7F = [0x7F] := by decide
example : write_int32_var 0x80 = [0x80, 0x01] := by decide
example : write_int32_var 0x3FFF = [0xFF, 0x7F] := by decide
example : write_int32_var 0xFFFFFFFF = [0xFF, 0xFF, 0xFF, 0xFF, 0x0F] := by decide
example : read_int32_var [0x80, 0x80, 0x80, 0x80, 0x80, 0x01] = none := by decide
example : read_int32_var [0xFF, 0xFF, 0xFF, 0xFF, 0x0F] = some (0xFFFFFFFF, []) := by
  decide

/-- Splitting a value into its low 7 bits and the rest, shifted into place. -/
theorem split7 (v k : Nat) :
    (v &&& 0x7F) <<< (7 * k) ||| (v >>> 7) <<< (7 * (k + 1)) = v <<< (7 * k) := by
  have h1 : (v &&& 0x7F) <<< (7 * k) = v % 128 * 2 ^ (7 * k) := by
    rw [SeRust.and_127_eq_mod, Nat.shiftLeft_eq]
  have h2 : (v >>> 7) <<< (7 * (k + 1)) = 2 ^ (7 * k + 7) * (v / 128) := by
    rw [Nat.shiftRight_eq_div_pow, Nat.shiftLeft_eq]
    have e : 7 * (k + 1) = 7 * k + 7 := by ring
    have e2 : (2 : Nat) ^ 7 = 128 := by norm_num
    rw [e, e2]
    exact Nat.mul_comm _ _
  have h3 : v <<< (7 * k) = v * 2 ^ (7 * k) := Nat.shiftLeft_eq v _
  rw [h1, h2, h3, Nat.or_comm]
  have hb : v % 128 * 2 ^ (7 * k) < 2 ^ (7 * k + 7) := by
    have : v % 128 < 128 := Nat.mod_lt _ (by norm_num)
    calc v % 128 * 2 ^ (7 * k) < 128 * 2 ^ (7 * k) :=
          Nat.mul_lt_mul_of_lt_of_le this (Nat.le_refl _) (Nat.two_pow_pos _)
      _ = 2 ^ (7 * k + 7) := by rw [Nat.pow_add]; ring
  rw [← Nat.mul_add_lt_is_or hb]
  have hv : 128 * (v / 128) + v % 128 = v := Nat.div_add_mod v 128
  calc 2 ^ (7 * k + 7) * (v / 128) + v % 128 * 2 ^ (7 * k)
      = (128 * (v / 128) + v % 128) * 2 ^ (7 * k) := by rw [Nat.pow_add]; ring
    _ = v * 2 ^ (7 * k) := by rw [hv]

/-- Main varint round-trip lemma, generalised over the read accumulator. -/
theorem readVarGo_writeVarGo (f : Nat) :
    ∀ k v res rest, 1 ≤ f → k + f = 5 → v < 2 ^ (7 * f - 3) →
      readVarGo (writeVarGo v f ++ rest) res k =
        some (res ||| v <<< (7 * k), rest) := by
  induction f with
  | zero => intro k v res rest h1 _ _; omega
  | succ f ih =>
    intro k v res rest _ hk hv
    have hkne : k ≠ 5 := by omega
    by_cases hbig : v > 0x7F
    · -- continuation byte, recurse
      have hf1 : 1 ≤ f := by
        rcases Nat.eq_zero_or_pos f with h0 | h
        · exfalso
          subst h0
          norm_num at hv
          omega
        · exact h
      have e1 : (0x7F : Nat) &&& 0x80 = 0 := by decide
      have e2 : (0x80 : Nat) &&& 0x80 = 0x80 := by decide
      have e3 : (0x7F : Nat) &&& 0x7F = 0x7F := by decide
      have e4 : (0x80 : Nat) &&& 0x7F = 0 := by decide
      have hb80 : ¬ ((v &&& 0x7F) ||| 0x80) &&& 0x80 = 0 := by
        rw [Nat.and_distrib_right, Nat.and_assoc, e1, e2, Nat.and_zero,
          Nat.zero_or]
        decide
      have hb7F : ((v &&& 0x7F) ||| 0x80) &&& 0x7F = v &&& 0x7F := by
        rw [Nat.and_distrib_right, Nat.and_assoc, e3, e4, Nat.or_zero]
      have hstep : writeVarGo v (f + 1) =
          ((v &&& 0x7F) ||| 0x80) :: writeVarGo (v >>> 7) f := by
        simp [writeVarGo, hbig]
      rw [hstep]
      simp only [List.cons_append, List.append_eq, readVarGo, if_neg hkne,
        if_neg hb80]
      rw [hb7F]
      have hvlt : v &&& 0x7F < 2 ^ 7 := by
        rw [and_127_eq_mod']
        exact Nat.mod_lt _ (by norm_num)
      have hshift_lt : (v &&& 0x7F) <<< (7 * k) < 2 ^ 32 :=
        SeRust.shiftLeft_lt_pow hvlt _ _ (by omega)
      rw [Nat.mod_eq_of_lt hshift_lt]
      have hvshift : v >>> 7 < 2 ^ (7 * f - 3) := by
        rw [Nat.shiftRight_eq_div_pow]
        apply Nat.div_lt_of_lt_mul
        calc v < 2 ^ (7 * (f + 1) - 3) := hv
          _ ≤ 2 ^ 7 * 2 ^ (7 * f - 3) := by
              rw [← Nat.pow_add]
              apply Nat.pow_le_pow_right (by norm_num)
              omega
      rw [ih (k + 1) (v >>> 7) (res ||| (v &&& 0x7F) <<< (7 * k)) rest hf1
        (by omega) hvshift]
      rw [Nat.or_assoc, split7]
    · -- final byte
      have hstep : writeVarGo v (f + 1) = [v &&& 0x7F] := by
        simp [writeVarGo, hbig]
      have hveq : v &&& 0x7F = v := by
        rw [and_127_eq_mod']
        exact Nat.mod_eq_of_lt (by omega)
      have hlow : v &&& 0x80 = 0 := SeRust.and_128_eq_zero_of_lt (by omega)
      have hif : (v &&& 0x7F) &&& 0x80 = 0 := by rw [hveq]; exact hlow
      have hshift_lt : v <<< (7 * k) < 2 ^ 32 :=
        SeRust.shiftLeft_lt_pow hv _ _ (by omega)
      rw [hstep]
      simp only [List.cons_append, List.nil_append, List.append_eq,
        readVarGo, if_neg hkne, if_pos hif, hveq, hlow,
        Nat.mod_eq_of_lt hshift_lt, if_true]
where
  and_127_eq_mod' (x : Nat) : x &&& 0x7F = x % 128 := SeRust.and_127_eq_mod x

end Bitbuf

/-- C7: For every value v in 0..=u32::MAX, writing v with write_int32_var and
then reading with read_int32_var from the resulting bytes yields v. -/
theorem varint32_roundtrip (v : Nat) (hv : v < 2 ^ 32) :
    Bitbuf.read_int32_var (Bitbuf.write_int32_var v) = some (v, []) := by
  have h := Bitbuf.readVarGo_writeVarGo 5 0 v 0 [] (by norm_num) (by norm_num)
    (by norm_num at hv ⊢; omega)
  simpa [Bitbuf.read_int32_var, Bitbuf.write_int32_var] using h

/-- C7 witness: the round-trip at `v = 0xDEADBEEF`. -/
theorem varint32_roundtrip_witness :
    (0xDEADBEEF : Nat) < 2 ^ 32 ∧
      Bitbuf.read_int32_var (Bitbuf.write_int32_var 0xDEADBEEF) =
        some (0xDEADBEEF, []) :=
  ⟨by norm_num, varint32_roundtrip 0xDEADBEEF (by norm_num)⟩

/-! ## lzss.rs — the LZSS decoder

Rust `usize` arithmetic is modelled with release-profile (wrapping)
semantics: `a - b` on `usize` is `(a + 2^64 - b) % 2^64`.  This matters in
`Lzss::decode`, where `(output.len() - 1) - position` can underflow. -/

deriving instance DecidableEq for Except

namespace Lzss

inductive LzssError
  | InvalidHeader
  | BadData
  | SizeMismatch
  | IoError
deriving DecidableEq, Repr

/-- `read_u8`: consume one byte or fail with EOF. -/
def readU8 : List Nat → Option (Nat × List Nat)
  | [] => none
  | b :: rest => some (b, rest)

/-- `read_u32::<LittleEndian>`. -/
def readU32LE : List Nat → Option (Nat × List Nat)
  | b0 :: b1 :: b2 :: b3 :: rest =>
    some (b0 ||| (b1 <<< 8) ||| (b2 <<< 16) ||| (b3 <<< 24), rest)
  | _ => none

/-- `LZSS_HEADER = ('S'<<24)|('S'<<16)|('Z'<<8)|'L'`. -/
def LZSS_HEADER : Nat := 0x53535A4C

/-- The reference-copy loop `for idx in target_index..target_index_end`:
push `output[idx]` bytewise (overlap-preserving); indices at or past the
current length are the "bad access" check yielding `BadData`.  The first
argument is the number of iterations of the range (0 when the wrapped end
is not above the start, matching Rust range semantics). -/
def copyRef : Nat → List Nat → Nat → Except LzssError (List Nat)
  | 0, out, _ => .ok out
  | n + 1, out, idx =>
    if idx ≥ out.length then .error .BadData
    else copyRef n (out ++ [out.getD idx 0]) (idx + 1)

/-- The main decode loop of `Lzss::decode`.  One fuel unit per iteration;
every iteration that recurses consumes at least one input byte, so fuel
`input.length + 1` can never be exhausted (the 0 case is unreachable and
mirrors the EOF error).  `Vec::with_capacity(actual_size)` is modelled with
capacity exactly `actual_size`, so the literal-path pointer-equality break
`out_ptr == out_ptr_end` is `output.length = actualSize`.  The final
`output.len() != actual_size` check of the function runs after either
`break`. -/
def decodeLoop (actualSize : Nat) :
    Nat → List Nat → List Nat → Nat → Nat → Except LzssError (List Nat)
  | 0, _, _, _, _ => .error .IoError
  | fuel + 1, input, output, getCmd, cmd =>
    match (if getCmd = 0 then readU8 input else some (cmd, input)) with
    | none => .error .IoError
    | some (cmdByte, input1) =>
      let getCmd' := (getCmd + 1) &&& 0x7
      if cmdByte &&& 1 ≠ 0 then
        match readU8 input1 with
        | none => .error .IoError
        | some (posByte, input2) =>
          match readU8 input2 with
          | none => .error .IoError
          | some (countByte, input3) =>
            let position := (posByte <<< 4) ||| (countByte >>> 4)
            let count := (countByte &&& 0xF) + 1
            if count = 1 then
              if output.length ≠ actualSize then .error .SizeMismatch
              else .ok output
            else
              let targetIndex := SeRust.usizeSub (SeRust.usizeSub output.length 1) position
              let targetEnd := (targetIndex + count) % SeRust.USIZE
              match copyRef (targetEnd - targetIndex) output targetIndex with
              | .error e => .error e
              | .ok output' =>
                decodeLoop actualSize fuel input3 output' getCmd' (cmdByte >>> 1)
      else
        if output.length = actualSize then
          if output.length ≠ actualSize then .error .SizeMismatch
          else .ok output
        else
          match readU8 input1 with
          | none => .error .IoError
          | some (b, input2) =>
            decodeLoop actualSize fuel input2 (output ++ [b]) getCmd' (cmdByte >>> 1)

/-- `Lzss::decode`. -/
def decode (input : List Nat) : Except LzssError (List Nat) :=
  match readU32LE input with
  | none => .error .IoError
  | some (header, input1) =>
    if header ≠ LZSS_HEADER then .error .InvalidHeader
    else
      match readU32LE input1 with
      | none => .error .IoError
      | some (actualSize, input2) =>
        decodeLoop actualSize (input2.length + 1) input2 [] 0 0

/-- §8 conformance vector 4: `"LZSS" | u32le(5) | 00 'H' 'e' 'l' 'l' 'o' |
01 00 00` decodes to `"Hello"`. -/
example :
    decode [0x4C, 0x5A, 0x53, 0x53, 5, 0, 0, 0,
            0x00, 72, 101, 108, 108, 111, 0x01, 0x00, 0x00] =
      .ok [72, 101, 108, 108, 111] := by decide

end Lzss

/-- C8 (failing input): the input declares `expected_size = 0` and opens with
a reference command whose back-offset 0 points before an empty output — an
out-of-bounds back-reference.  The claim (and the code's own "check for bad
access" branch) demand `BadData`, but `(output.len() - 1) - position`
underflows: with wrapping `usize` arithmetic the copy range
`target_index..target_index+count` wraps past `2^64` and is empty, the
reference is silently skipped, and decode returns `Ok` (an empty output).
(Under debug-profile Rust the same input panics on the underflow; either
way, `BadData` is never returned.) -/
theorem lzss_oob_reference_not_bad_data :
    Lzss.decode [0x4C, 0x5A, 0x53, 0x53, 0, 0, 0, 0, 0x01, 0x00, 0x01] =
      .ok [] := by decide

/-! ## ice.rs — the ICE block cipher -/

namespace Ice

def ice_smod : List (List Nat) :=
  [[333, 313, 505, 369],
   [379, 375, 319, 391],
   [361, 445, 451, 397],
   [397, 425, 395, 505]]

def ice_sxor : List (List Nat) :=
  [[0x83, 0x85, 0x9b, 0xcd],
   [0xcc, 0xa7, 0xad, 0x41],
   [0x4b, 0x2e, 0xd4, 0x33],
   [0xea, 0xcb, 0x2e, 0x04]]

def ice_pbox : List Nat :=
  [0x00000001, 0x00000080, 0x00000400, 0x00002000,
   0x00080000, 0x00200000, 0x01000000, 0x40000000,
   0x00000008, 0x00000020, 0x00000100, 0x00004000,
   0x00010000, 0x00800000, 0x04000000, 0x20000000,
   0x00000004, 0x00000010, 0x00000200, 0x00008000,
   0x00020000, 0x00400000, 0x08000000, 0x10000000,
   0x00000002, 0x00000040, 0x00000800, 0x00001000,
   0x00040000, 0x00100000, 0x02000000, 0x80000000]

def ice_keyrot : List Nat := [0, 1, 2, 3, 2, 1, 3, 0, 1, 3, 2, 0, 3, 1, 0, 2]

def ice_keyrot2 : List Nat := [1, 3, 2, 0, 3, 1, 0, 2]

/-- `gf_mult`: GF(2^8) multiplication modulo `m`.  The Rust `while b != 0`
loop halves `b` each iteration; every reachable call has `b < 2^16`, so
fuel 16 makes the recursion structural without changing the function
there. -/
def gf_multGo : Nat → Nat → Nat → Nat → Nat → Nat
  | 0, res, _, _, _ => res
  | fuel + 1, res, a, b, m =>
    if b = 0 then res
    else
      let res' := if b &&& 1 ≠ 0 then res ^^^ a else res
      let a' := a <<< 1
      let b' := b >>> 1
      let a'' := if a' ≥ 256 then a' ^^^ m else a'
      gf_multGo fuel res' a'' b' m

def gf_mult (a b m : Nat) : Nat := gf_multGo 16 0 a b m

/-- `gf_exp7`: `b^7` in GF(2^8) mod `m`. -/
def gf_exp7 (b m : Nat) : Nat :=
  if b = 0 then 0
  else
    let x1 := gf_mult b b m
    let x2 := gf_mult b x1 m
    let x3 := gf_mult x2 x2 m
    gf_mult b x3 m

/-- `ice_perm32`: permute the bits of `x` through `ice_pbox`.  The Rust
`while x != 0` loop halves `x` each iteration; every reachable call has
`x < 2^32`, so fuel 32 suffices. -/
def ice_perm32Go : Nat → Nat → Nat → Nat → Nat
  | 0, res, _, _ => res
  | fuel + 1, res, x, idx =>
    if x = 0 then res
    else
      ice_perm32Go fuel
        (if x &&& 1 ≠ 0 then res ||| ice_pbox.getD idx 0 else res)
        (x >>> 1) (idx + 1)

def ice_perm32 (x : Nat) : Nat := ice_perm32Go 32 0 x 0

/-- Entry `i` of S-box `k` (k = 0..3), exactly as `ice_sboxes_init`
computes the table `ice_sbox[k][i]`; the left-shifts are 24, 16, 8, 0 for
the four boxes. -/
def ice_sbox (k i : Nat) : Nat :=
  let col := (i >>> 1) &&& 0xff
  let row := (i &&& 0x1) ||| ((i &&& 0x200) >>> 8)
  let sx := (ice_sxor.getD k []).getD row 0
  let sm := (ice_smod.getD k []).getD row 0
  ice_perm32 (gf_exp7 (col ^^^ sx) sm <<< (24 - 8 * k))

/-- A round subkey: the three `u32`s of `IceSubKey.key`. -/
def SubKey := List Nat
deriving instance DecidableEq for SubKey

/-- `ice_f`: the Feistel round function.  `p << 18` and `p << 2` are `u32`
shifts, hence the `% 2^32`. -/
def ice_f (p : Nat) (sk : SubKey) : Nat :=
  let tl := ((p >>> 16) &&& 0x3ff) ||| (((p >>> 14) ||| ((p <<< 18) % 2 ^ 32)) &&& 0xffc00)
  let tr := (p &&& 0x3ff) ||| (((p <<< 2) % 2 ^ 32) &&& 0xffc00)
  let al0 := sk.getD 2 0 &&& (tl ^^^ tr)
  let ar0 := al0 ^^^ tr
  let al1 := al0 ^^^ tl
  let al := al1 ^^^ sk.getD 0 0
  let ar := ar0 ^^^ sk.getD 1 0
  ice_sbox 0 (al >>> 10) ||| ice_sbox 1 (al &&& 0x3ff) |||
    ice_sbox 2 (ar >>> 10) ||| ice_sbox 3 (ar &&& 0x3ff)

/-- The Feistel ladder, consuming subkeys two per double-round.  Applied to
the schedule it is the `encrypt_block_inplace` loop (`i = 0, 2, ...` with
`sk[i]` then `sk[i+1]`); applied to the reversed schedule it is the
`decrypt_block_inplace` loop (`i = rounds-1, rounds-3, ...` with `sk[i]`
then `sk[i-1]`).  The schedule always has even length (16·n or 8 rounds),
so the one-key case is unreachable. -/
def feistel : List SubKey → Nat × Nat → Nat × Nat
  | [], lr => lr
  | [_], lr => lr
  | k1 :: k2 :: ks, (l, r) =>
    feistel ks (l ^^^ ice_f r k1, r ^^^ ice_f (l ^^^ ice_f r k1) k2)

/-- `encrypt_block_inplace_prepare` / `decrypt_block_inplace_prepare`:
big-endian halves of the 8-byte block. -/
def prepareLR (t : List Nat) : Nat × Nat :=
  ((t.getD 0 0 <<< 24) ||| (t.getD 1 0 <<< 16) ||| (t.getD 2 0 <<< 8) ||| t.getD 3 0,
   (t.getD 4 0 <<< 24) ||| (t.getD 5 0 <<< 16) ||| (t.getD 6 0 <<< 8) ||| t.getD 7 0)

/-- The output loop shared by `encrypt_block_inplace` and
`decrypt_block_inplace`: `out[3-i] = r & 0xff`, `out[7-i] = l & 0xff`,
shifting right by 8 each step. -/
def outBytes (l r : Nat) : List Nat :=
  [(r >>> 24) &&& 0xff, (r >>> 16) &&& 0xff, (r >>> 8) &&& 0xff, r &&& 0xff,
   (l >>> 24) &&& 0xff, (l >>> 16) &&& 0xff, (l >>> 8) &&& 0xff, l &&& 0xff]

/-- One step of the `for k in 0..4` loop inside `ice_key_sched_build`:
pull one bit out of `kb[(kr+k) & 3]` into `sk[j % 3]`. -/
def schedStepK (kr j : Nat) (st : List Nat × List Nat) (k : Nat) :
    List Nat × List Nat :=
  let sk := st.1
  let kb := st.2
  let kbIdx := (kr + k) &&& 3
  let currKb := kb.getD kbIdx 0
  let bit := currKb &&& 1
  let skIdx := j % 3
  let sk' := sk.set skIdx ((sk.getD skIdx 0 <<< 1) ||| bit)
  let kb' := kb.set kbIdx ((currKb >>> 1) ||| ((bit ^^^ 1) <<< 15))
  (sk', kb')

/-- The `for j in 0..15` loop of `ice_key_sched_build` for one subkey:
starts from `key = [0,0,0]` and threads the mutable `kb`. -/
def buildSubKey (kb : List Nat) (kr : Nat) : SubKey × List Nat :=
  (List.range 15).foldl
    (fun st j => (List.range 4).foldl (schedStepK kr j) st) ([0, 0, 0], kb)

/-- The `for i in 0..8` loop of `ice_key_sched_build`: build 8 consecutive
subkeys, threading `kb`. -/
def sched8Step (keyrot : List Nat) (acc : List SubKey × List Nat) (i : Nat) :
    List SubKey × List Nat :=
  let done := acc.1
  let kb := acc.2
  let r := buildSubKey kb (keyrot.getD i 0)
  (done ++ [r.1], r.2)

def buildSched8 (kb : List Nat) (keyrot : List Nat) : List SubKey × List Nat :=
  (List.range 8).foldl (sched8Step keyrot) ([], kb)

/-- `kb[3 - i] = (key[base + i*2] << 8) | key[base + i*2 + 1]`. -/
def kbFromKey (key : List Nat) (base : Nat) : List Nat :=
  [(key.getD (base + 6) 0 <<< 8) ||| key.getD (base + 7) 0,
   (key.getD (base + 4) 0 <<< 8) ||| key.getD (base + 5) 0,
   (key.getD (base + 2) 0 <<< 8) ||| key.getD (base + 3) 0,
   (key.getD (base + 0) 0 <<< 8) ||| key.getD (base + 1) 0]

/-- Overwrite the 8 schedule slots starting at `pos` (the in-place writes
of `ice_key_sched_build` into the preallocated `ik_sched`). -/
def writeSub (l : List SubKey) (pos : Nat) (seg : List SubKey) : List SubKey :=
  l.take pos ++ seg ++ l.drop (pos + seg.length)

/-- `ice_key_create` followed by `ice_key_set`: the complete key schedule.
For `n = 0` there are 8 rounds built with `ice_keyrot` only; otherwise
`16·n` rounds where block `i` of the key fills slots `i*8` (with
`ice_keyrot`) and slots `rounds-8-i*8` (with `ice_keyrot2`), reusing the
`kb` state mutated by the first fill. -/
def ice_key_set (n : Nat) (key : List Nat) : List SubKey :=
  let size := if n < 1 then 1 else n
  let rounds := if n < 1 then 8 else n * 16
  let init : List SubKey := List.replicate rounds [0, 0, 0]
  if rounds = 8 then
    let kb := kbFromKey key 0
    writeSub init 0 (buildSched8 kb ice_keyrot).1
  else
    (List.range size).foldl
      (fun sched i =>
        let kb := kbFromKey key (i * 8)
        let rA := buildSched8 kb ice_keyrot
        let rB := buildSched8 rA.2 ice_keyrot2
        writeSub (writeSub sched (i * 8) rA.1) (rounds - 8 - i * 8) rB.1)
      init

/-- `IceEncryption::encrypt` on one 8-byte block (prepare + inplace). -/
def encrypt (sched : List SubKey) (ptext : List Nat) : List Nat :=
  let lr := prepareLR ptext
  let out := feistel sched lr
  outBytes out.1 out.2

/-- `IceEncryption::decrypt` on one 8-byte block: the same ladder over the
schedule read backwards. -/
def decrypt (sched : List SubKey) (ctext : List Nat) : List Nat :=
  let lr := prepareLR ctext
  let out := feistel sched.reverse lr
  outBytes out.1 out.2

end Ice

namespace Ice

/-! ### Correctness of the ICE round trip -/

theorem feistel_cons (k1 k2 : SubKey) (ks : List SubKey) (l r : Nat) :
    feistel (k1 :: k2 :: ks) (l, r) =
      feistel ks (l ^^^ ice_f r k1, r ^^^ ice_f (l ^^^ ice_f r k1) k2) := rfl

theorem feistel_append (as : List SubKey) (h : as.length % 2 = 0)
    (bs : List SubKey) (lr : Nat × Nat) :
    feistel (as ++ bs) lr = feistel bs (feistel as lr) := by
  match as, lr, h with
  | [], lr, _ => rfl
  | [k], _, h => simp at h
  | k1 :: k2 :: ks, (l, r), h =>
    rw [List.cons_append, List.cons_append, feistel_cons, feistel_cons]
    exact feistel_append ks (by simp only [List.length_cons] at h; omega) bs _
termination_by as.length

/-- The decryption ladder (the same ladder over the reversed schedule)
undoes the encryption ladder, with the halves swapped the way
`encrypt_block_inplace` emits them and `decrypt_block_inplace_prepare`
reads them back. -/
theorem feistel_inv (ks : List SubKey) (h : ks.length % 2 = 0) (l r l2 r2 : Nat)
    (he : feistel ks (l, r) = (l2, r2)) :
    feistel ks.reverse (r2, l2) = (r, l) := by
  match ks, h with
  | [], _ =>
    rw [show feistel [] (l, r) = (l, r) from rfl] at he
    cases he
    rfl
  | [k], h => simp at h
  | k1 :: k2 :: ks, h =>
    have h' : ks.length % 2 = 0 := by simp only [List.length_cons] at h; omega
    rw [feistel_cons] at he
    have ih := feistel_inv ks h' _ _ l2 r2 he
    have hrev : (k1 :: k2 :: ks).reverse = ks.reverse ++ [k2, k1] := by simp
    rw [hrev, feistel_append ks.reverse (by simpa using h') [k2, k1] _, ih]
    show ((r ^^^ ice_f (l ^^^ ice_f r k1) k2) ^^^ ice_f (l ^^^ ice_f r k1) k2,
        (l ^^^ ice_f r k1) ^^^
          ice_f ((r ^^^ ice_f (l ^^^ ice_f r k1) k2) ^^^
            ice_f (l ^^^ ice_f r k1) k2) k1) = (r, l)
    rw [Nat.xor_cancel_right, Nat.xor_cancel_right]
termination_by ks.length

/-! ### Bounds: every Feistel half stays below `2^32` -/

theorem pbox_getD_lt (i : Nat) : ice_pbox.getD i 0 < 2 ^ 32 := by
  rcases Nat.lt_or_ge i 32 with h | h
  · have hb : ∀ j, j < 32 → ice_pbox.getD j 0 < 2 ^ 32 := by decide
    exact hb i h
  · rw [List.getD_eq_default]
    · norm_num
    · simpa [ice_pbox] using h

theorem ice_perm32Go_lt :
    ∀ fuel res x idx, res < 2 ^ 32 → ice_perm32Go fuel res x idx < 2 ^ 32 := by
  intro fuel
  induction fuel with
  | zero => intro res x idx h; simpa [ice_perm32Go] using h
  | succ fuel ih =>
    intro res x idx h
    rw [ice_perm32Go]
    split
    · exact h
    · apply ih
      split
      · exact Nat.or_lt_two_pow h (pbox_getD_lt _)
      · exact h

theorem ice_perm32_lt (x : Nat) : ice_perm32 x < 2 ^ 32 :=
  ice_perm32Go_lt 32 0 x 0 (by norm_num)

theorem ice_sbox_lt (k i : Nat) : ice_sbox k i < 2 ^ 32 := ice_perm32_lt _

theorem ice_f_lt (p : Nat) (sk : SubKey) : ice_f p sk < 2 ^ 32 :=
  Nat.or_lt_two_pow
    (Nat.or_lt_two_pow
      (Nat.or_lt_two_pow (ice_sbox_lt _ _) (ice_sbox_lt _ _))
      (ice_sbox_lt _ _))
    (ice_sbox_lt _ _)

theorem feistel_lt (ks : List SubKey) (l r : Nat) (hl : l < 2 ^ 32)
    (hr : r < 2 ^ 32) :
    (feistel ks (l, r)).1 < 2 ^ 32 ∧ (feistel ks (l, r)).2 < 2 ^ 32 := by
  match ks with
  | [] => exact ⟨hl, hr⟩
  | [k] => exact ⟨hl, hr⟩
  | k1 :: k2 :: ks =>
    rw [feistel_cons]
    exact feistel_lt ks _ _ (Nat.xor_lt_two_pow hl (ice_f_lt _ _))
      (Nat.xor_lt_two_pow hr (ice_f_lt _ _))
termination_by ks.length

/-! ### Byte packing -/

theorem pack_eq_add (b0 b1 b2 b3 : Nat) (h1 : b1 < 256) (h2 : b2 < 256)
    (h3 : b3 < 256) :
    (b0 <<< 24) ||| (b1 <<< 16) ||| (b2 <<< 8) ||| b3 =
      b0 * 2 ^ 24 + b1 * 2 ^ 16 + b2 * 2 ^ 8 + b3 := by
  have e1 : (b0 <<< 24) % 2 ^ 24 = 0 := by
    simp [Nat.shiftLeft_eq, Nat.mul_mod_left]
  have l1 : b1 <<< 16 < 2 ^ 24 := by rw [Nat.shiftLeft_eq]; omega
  rw [SeRust.lor_eq_add_of_lt _ _ 24 e1 l1]
  have e2 : (b0 <<< 24 + b1 <<< 16) % 2 ^ 16 = 0 := by
    simp only [Nat.shiftLeft_eq]; omega
  have l2 : b2 <<< 8 < 2 ^ 16 := by rw [Nat.shiftLeft_eq]; omega
  rw [SeRust.lor_eq_add_of_lt _ _ 16 e2 l2]
  have e3 : (b0 <<< 24 + b1 <<< 16 + b2 <<< 8) % 2 ^ 8 = 0 := by
    simp only [Nat.shiftLeft_eq]; omega
  rw [SeRust.lor_eq_add_of_lt _ _ 8 e3 (by omega)]
  simp only [Nat.shiftLeft_eq]

/-- Extracting the four bytes back out of a packed big-endian `u32`. -/
theorem unpack_pack (b0 b1 b2 b3 : Nat) (h0 : b0 < 256) (h1 : b1 < 256)
    (h2 : b2 < 256) (h3 : b3 < 256) :
    (((b0 <<< 24) ||| (b1 <<< 16) ||| (b2 <<< 8) ||| b3) >>> 24) &&& 0xff = b0 ∧
    (((b0 <<< 24) ||| (b1 <<< 16) ||| (b2 <<< 8) ||| b3) >>> 16) &&& 0xff = b1 ∧
    (((b0 <<< 24) ||| (b1 <<< 16) ||| (b2 <<< 8) ||| b3) >>> 8) &&& 0xff = b2 ∧
    ((b0 <<< 24) ||| (b1 <<< 16) ||| (b2 <<< 8) ||| b3) &&& 0xff = b3 ∧
    (b0 <<< 24) ||| (b1 <<< 16) ||| (b2 <<< 8) ||| b3 < 2 ^ 32 := by
  rw [pack_eq_add _ _ _ _ h1 h2 h3]
  simp only [Nat.shiftRight_eq_div_pow, SeRust.and_255_eq_mod]
  refine ⟨?_, ?_, ?_, ?_, ?_⟩ <;> omega

/-- Re-packing the four extracted bytes of a `u32` recovers it. -/
theorem repack_unpack (r : Nat) (hr : r < 2 ^ 32) :
    (((r >>> 24) &&& 0xff) <<< 24) ||| (((r >>> 16) &&& 0xff) <<< 16) |||
      (((r >>> 8) &&& 0xff) <<< 8) ||| (r &&& 0xff) = r := by
  have h1 : (r >>> 16) &&& 0xff < 256 := by
    rw [SeRust.and_255_eq_mod]; omega
  have h2 : (r >>> 8) &&& 0xff < 256 := by
    rw [SeRust.and_255_eq_mod]; omega
  have h3 : r &&& 0xff < 256 := by
    rw [SeRust.and_255_eq_mod]; omega
  rw [pack_eq_add _ _ _ _ h1 h2 h3]
  simp only [Nat.shiftRight_eq_div_pow, SeRust.and_255_eq_mod]
  omega

theorem prepareLR_outBytes (l r : Nat) (hl : l < 2 ^ 32) (hr : r < 2 ^ 32) :
    prepareLR (outBytes l r) = (r, l) := by
  simp only [prepareLR, outBytes, List.getD_cons_zero, List.getD_cons_succ]
  rw [repack_unpack r hr, repack_unpack l hl]

end Ice

namespace Ice

/-! ### Schedule length -/

theorem sched8_foldl_len (l : List Nat) :
    ∀ (acc : List SubKey × List Nat) (rot : List Nat),
      ((l.foldl (sched8Step rot) acc).1).length = acc.1.length + l.length := by
  induction l with
  | nil => intro acc rot; simp
  | cons x xs ih =>
    intro acc rot
    rw [List.foldl_cons, ih]
    simp [sched8Step]
    omega

theorem buildSched8_fst_length (kb rot : List Nat) :
    (buildSched8 kb rot).1.length = 8 := by
  have h := sched8_foldl_len (List.range 8) ((([] : List SubKey), kb)) rot
  simpa [buildSched8] using h

theorem writeSub_length (l : List SubKey) (pos : Nat) (seg : List SubKey)
    (h : pos + seg.length ≤ l.length) : (writeSub l pos seg).length = l.length := by
  simp [writeSub, List.length_append, List.length_take, List.length_drop]
  omega

theorem ice_key_set_2_length (key : List Nat) : (ice_key_set 2 key).length = 32 := by
  have hr : List.range 2 = [0, 1] := rfl
  rw [ice_key_set]
  simp only [if_neg (by norm_num : ¬ (2 : Nat) < 1),
    if_neg (by norm_num : ¬ (2 : Nat) * 16 = 8), hr, List.foldl_cons,
    List.foldl_nil]
  have h0 : (List.replicate (2 * 16) ([0, 0, 0] : SubKey)).length = 32 := by
    simp
  rw [writeSub_length, writeSub_length, writeSub_length, writeSub_length]
  · exact h0
  · rw [buildSched8_fst_length]; omega
  · rw [writeSub_length, buildSched8_fst_length]
    · omega
    · rw [buildSched8_fst_length]; omega
  · rw [buildSched8_fst_length, writeSub_length, writeSub_length]
    · omega
    · rw [buildSched8_fst_length]; omega
    · rw [writeSub_length, buildSched8_fst_length]
      · omega
      · rw [buildSched8_fst_length]; omega
  · rw [buildSched8_fst_length, writeSub_length, writeSub_length, writeSub_length]
    · omega
    · rw [buildSched8_fst_length]; omega
    · rw [writeSub_length, buildSched8_fst_length]
      · omega
      · rw [buildSched8_fst_length]; omega
    · rw [buildSched8_fst_length, writeSub_length, writeSub_length]
      · omega
      · rw [buildSched8_fst_length]; omega
      · rw [writeSub_length, buildSched8_fst_length]
        · omega
        · rw [buildSched8_fst_length]; omega

end Ice

/-- An 8-element list is literally its 8 elements. -/
theorem list_len8 (p : List Nat) (hp : p.length = 8) :
    ∃ b0 b1 b2 b3 b4 b5 b6 b7, p = [b0, b1, b2, b3, b4, b5, b6, b7] := by
  rcases p with _ | ⟨b0, p⟩; · simp at hp
  rcases p with _ | ⟨b1, p⟩; · simp at hp
  rcases p with _ | ⟨b2, p⟩; · simp at hp
  rcases p with _ | ⟨b3, p⟩; · simp at hp
  rcases p with _ | ⟨b4, p⟩; · simp at hp
  rcases p with _ | ⟨b5, p⟩; · simp at hp
  rcases p with _ | ⟨b6, p⟩; · simp at hp
  rcases p with _ | ⟨b7, p⟩; · simp at hp
  rcases p with _ | ⟨b8, p⟩
  · exact ⟨b0, b1, b2, b3, b4, b5, b6, b7, rfl⟩
  · simp at hp

/-- C1: For every 16-byte key k and every 8-byte block p, constructing the
ICE cipher with n=2 and key k and then computing decrypt(k, encrypt(k, p))
yields p. -/
theorem ice_decrypt_encrypt_roundtrip (key p : List Nat)
    (hkey : key.length = 16) (hkeyb : ∀ b ∈ key, b < 256)
    (hp : p.length = 8) (hpb : ∀ b ∈ p, b < 256) :
    Ice.decrypt (Ice.ice_key_set 2 key) (Ice.encrypt (Ice.ice_key_set 2 key) p)
      = p := by
  obtain ⟨b0, b1, b2, b3, b4, b5, b6, b7, rfl⟩ := list_len8 p hp
  have h0 : b0 < 256 := hpb _ (by simp)
  have h1 : b1 < 256 := hpb _ (by simp)
  have h2 : b2 < 256 := hpb _ (by simp)
  have h3 : b3 < 256 := hpb _ (by simp)
  have h4 : b4 < 256 := hpb _ (by simp)
  have h5 : b5 < 256 := hpb _ (by simp)
  have h6 : b6 < 256 := hpb _ (by simp)
  have h7 : b7 < 256 := hpb _ (by simp)
  obtain ⟨e10, e11, e12, e13, hL0⟩ := Ice.unpack_pack b0 b1 b2 b3 h0 h1 h2 h3
  obtain ⟨e20, e21, e22, e23, hR0⟩ := Ice.unpack_pack b4 b5 b6 b7 h4 h5 h6 h7
  set s := Ice.ice_key_set 2 key with hs
  have hsl : s.length % 2 = 0 := by rw [hs, Ice.ice_key_set_2_length]
  set L0 := (b0 <<< 24) ||| (b1 <<< 16) ||| (b2 <<< 8) ||| b3 with hL0def
  set R0 := (b4 <<< 24) ||| (b5 <<< 16) ||| (b6 <<< 8) ||| b7 with hR0def
  have hprep : Ice.prepareLR [b0, b1, b2, b3, b4, b5, b6, b7] = (L0, R0) := by
    simp only [Ice.prepareLR, List.getD_cons_zero, List.getD_cons_succ]
  have hqb := Ice.feistel_lt s L0 R0 hL0 hR0
  have hinv := Ice.feistel_inv s hsl L0 R0
    (Ice.feistel s (L0, R0)).1 (Ice.feistel s (L0, R0)).2 Prod.mk.eta.symm
  simp only [Ice.encrypt, Ice.decrypt, hprep]
  rw [Ice.prepareLR_outBytes _ _ hqb.1 hqb.2, hinv]
  simp only [Ice.outBytes]
  rw [e10, e11, e12, e13, e20, e21, e22, e23]

/-- C1 witness: the §8 conformance key/plaintext (key `"AAAAAAAAAAAAAAAA"`,
block `"BBBBBBBB"`). -/
theorem ice_decrypt_encrypt_roundtrip_witness :
    ((List.replicate 16 65 : List Nat).length = 16 ∧
      (∀ b ∈ (List.replicate 16 65 : List Nat), b < 256) ∧
      (List.replicate 8 66 : List Nat).length = 8 ∧
      (∀ b ∈ (List.replicate 8 66 : List Nat), b < 256)) ∧
    Ice.decrypt (Ice.ice_key_set 2 (List.replicate 16 65))
        (Ice.encrypt (Ice.ice_key_set 2 (List.replicate 16 65))
          (List.replicate 8 66)) =
      List.replicate 8 66 :=
  ⟨⟨by decide, by decide, by decide, by decide⟩,
    ice_decrypt_encrypt_roundtrip (List.replicate 16 65) (List.replicate 8 66)
      (by decide) (by decide) (by decide) (by decide)⟩

/-- §8 conformance vector 1 (ICE n=2): key `"AAAAAAAAAAAAAAAA"`, plaintext
`"BBBBBBBB"`, ciphertext `AC 87 14 E3 22 82 56 80`. -/
example :
    Ice.encrypt (Ice.ice_key_set 2 (List.replicate 16 65)) (List.replicate 8 66) =
      [0xac, 0x87, 0x14, 0xe3, 0x22, 0x82, 0x56, 0x80] := by decide

/-! ## Errors and external collaborators -/

namespace SeRust

/-- The error outcomes of the NetChannel receive pipeline.  `anyhow`
errors are recoverable per-frame errors; `panic*` constructors model Rust
`panic!`s, failed `assert`s/`unwrap`s and out-of-bounds slice indexing,
which abort the process (session-fatal), not just the frame. -/
inductive Err
  | readErr             -- bitstream EOF / invalid varint32
  | invalidUtf8         -- read_string: String::from_utf8 failed
  | outOfBounds         -- "Fragment chunk received out of bounds"
  | tooLarge            -- "Exceeded max file transfer size!"
  | zeroPayload         -- "Invalid 0 length subfragment received!"
  | compressedTooLarge  -- "Exceeded max compressed file transfer size!"
  | noPending           -- "Received fragment but no transfer pending"
  | decompressMismatch  -- "Decompressed data length mismatch from fragment transfer"
  | lzss (e : Lzss.LzssError)
  | alignment           -- "Unexpected packet alignment"
  | invalidGarbage      -- "Invalid garbage bytes in packet"
  | invalidWireSize     -- "Invalid wire size"
  | sequenceMismatch    -- "Sequence number mismatch"
  | panicSplit          -- panic!("Split packets not supported yet!")
  | panicConnectionless -- the two connectionless panic!s in channel.rs
  | panicFile           -- panic!("File transfers not implemented yet!")
  | panicAssert         -- assert_eq! failure in TransferBuffer::unwrap_payload
  | panicUnwrapNone     -- .unwrap() on None
  | panicSliceOob       -- out-of-bounds slice index
deriving DecidableEq, Repr

/-- Behaviour of external collaborators, not part of this repository:
whether `String::from_utf8` accepts a byte sequence, and whether the
protobuf decode inside `NetMessage::bind` succeeds for a given id/body.
Theorems quantify over this record. -/
structure Ext where
  utf8Ok : List Nat → Bool
  bindOk : Nat → List Nat → Bool

end SeRust

/-! ## subchannel.rs — reliable fragment reassembly -/

namespace Sub

open SeRust (Err Ext)

def MAX_FILE_SIZE : Nat := (1 <<< 26) - 1
def FRAGMENT_SIZE : Nat := 1 <<< 8

/-- `TransferBuffer`: a reassembly buffer plus fragment bookkeeping. -/
structure TransferBuffer where
  buffer : List Nat
  num_fragments : Nat
  num_fragments_ack : Nat
deriving DecidableEq, Repr

/-- `TransferBuffer::new`. -/
def TransferBuffer.new (transfer_size : Nat) : TransferBuffer :=
  { buffer := List.replicate transfer_size 0
    num_fragments := (transfer_size + FRAGMENT_SIZE - 1) / FRAGMENT_SIZE
    num_fragments_ack := 0 }

/-- The tail of `TransferBuffer::read_fragments`: read `len` bytes into
`buffer[start_frag*256 ..]`; a slice range past the end of the buffer is a
Rust panic. -/
def TransferBuffer.readInto (tb : TransferBuffer) (startFrag numFrags : Nat)
    (complete : Bool) (len : Nat) (reader : Bitbuf.BitStream) :
    Except Err (Bool × TransferBuffer × Bitbuf.BitStream) :=
  let start := startFrag * FRAGMENT_SIZE
  if start + len > tb.buffer.length then .error .panicSliceOob
  else
    match reader.readBytes len with
    | none => .error .readErr
    | some (bytes, reader') =>
      .ok (complete,
        { buffer := tb.buffer.take start ++ bytes ++ tb.buffer.drop (start + len)
          num_fragments := tb.num_fragments
          num_fragments_ack := tb.num_fragments_ack + numFrags },
        reader')

/-- `TransferBuffer::read_fragments`.  `total_recv_length -= final_part` is
`usize` arithmetic, hence the wrapping subtraction. -/
def TransferBuffer.read_fragments (tb : TransferBuffer)
    (startFrag numFrags : Nat) (reader : Bitbuf.BitStream) :
    Except Err (Bool × TransferBuffer × Bitbuf.BitStream) :=
  let totalRecvLength := numFrags * FRAGMENT_SIZE
  if startFrag + numFrags = tb.num_fragments then
    let finalPart := FRAGMENT_SIZE - tb.buffer.length % FRAGMENT_SIZE
    let len := if finalPart < FRAGMENT_SIZE then
        SeRust.usizeSub totalRecvLength finalPart
      else totalRecvLength
    tb.readInto startFrag numFrags true len reader
  else if startFrag + numFrags > tb.num_fragments then .error .outOfBounds
  else tb.readInto startFrag numFrags false totalRecvLength reader

/-- `TransferBuffer::decompress_payload`. -/
def TransferBuffer.decompress_payload (tb : TransferBuffer)
    (expectedLength : Nat) : Except Err TransferBuffer :=
  match Lzss.decode tb.buffer with
  | .error e => .error (.lzss e)
  | .ok decompressed =>
    if decompressed.length ≠ expectedLength then .error .decompressMismatch
    else .ok { tb with buffer := decompressed }

/-- `TransferBuffer::unwrap_payload`: `assert_eq!(num_fragments,
num_fragments_ack)` then surrender the buffer; a failed assert panics. -/
def TransferBuffer.unwrap_payload (tb : TransferBuffer) :
    Except Err (List Nat) :=
  if tb.num_fragments = tb.num_fragments_ack then .ok tb.buffer
  else .error .panicAssert

/-- `SubChannel` state.  `file` carries `(transfer_id, filename bytes)`. -/
structure SubChannel where
  file : Option (Nat × List Nat)
  compressed : Option Nat
  is_replay : Bool
  payload_size : Nat
  transfer : Option TransferBuffer
  in_reliable_state : Bool
deriving DecidableEq, Repr

/-- `SubChannel::new`. -/
def SubChannel.new : SubChannel :=
  { file := none, compressed := none, is_replay := false, payload_size := 0
    transfer := none, in_reliable_state := false }

/-- The byte-collecting loop of `WireReader::read_string`: single bytes
until a NUL.  Each iteration consumes 8 bits, so fuel `data.length + 1`
cannot run out (the 0 case mirrors EOF). -/
def readStringGo : Nat → Bitbuf.BitStream → List Nat →
    Except Err (List Nat × Bitbuf.BitStream)
  | 0, _, _ => .error .readErr
  | fuel + 1, s, acc =>
    match s.read 8 with
    | none => .error .readErr
    | some (b, s') =>
      if b = 0 then .ok (acc, s')
      else readStringGo fuel s' (acc ++ [b])

/-- `WireReader::read_string`: bytes to NUL, then UTF-8 validation
(delegated to the external behaviour record). -/
def read_string (ext : Ext) (s : Bitbuf.BitStream) :
    Except Err (List Nat × Bitbuf.BitStream) :=
  match readStringGo (s.data.length + 1) s [] with
  | .error e => .error e
  | .ok (bytes, s') =>
    if ext.utf8Ok bytes then .ok (bytes, s') else .error .invalidUtf8

/-- `SubChannel::read_file_info`.  (On a mid-way read error the Rust code
keeps the partially-updated fields; the model returns only the error — no
theorem below inspects subchannel state on an errored frame.) -/
def SubChannel.read_file_info (sub : SubChannel) (ext : Ext)
    (reader : Bitbuf.BitStream) : Except Err (SubChannel × Bitbuf.BitStream) :=
  match reader.readBit with
  | none => .error .readErr
  | some (isFile, r1) =>
    if isFile then
      match r1.read 32 with
      | none => .error .readErr
      | some (transferId, r2) =>
        match read_string ext r2 with
        | .error e => .error e
        | .ok (filename, r3) =>
          match r3.readBit with
          | none => .error .readErr
          | some (isReplay, r4) =>
            .ok ({ sub with
                    file := some (transferId, filename)
                    is_replay := if isReplay then true else sub.is_replay }, r4)
    else .ok (sub, r1)

/-- `SubChannel::read_compress_info`. -/
def SubChannel.read_compress_info (sub : SubChannel)
    (reader : Bitbuf.BitStream) : Except Err (SubChannel × Bitbuf.BitStream) :=
  match reader.readBit with
  | none => .error .readErr
  | some (compressed, r1) =>
    if compressed then
      match r1.read 26 with
      | none => .error .readErr
      | some (uncompressedSize, r2) =>
        .ok ({ sub with compressed := some uncompressedSize }, r2)
    else .ok (sub, r1)

/-- `SubChannel::complete_transfer`: decompress if compressed, then `take`
the finished transfer out. -/
def SubChannel.complete_transfer (sub : SubChannel) :
    Except Err (TransferBuffer × SubChannel) :=
  match sub.transfer with
  | none => .error .panicUnwrapNone
  | some tb =>
    match sub.compressed with
    | some uncompressedSize =>
      match tb.decompress_payload uncompressedSize with
      | .error e => .error e
      | .ok tb' => .ok (tb', { sub with transfer := none })
    | none => .ok (tb, { sub with transfer := none })

/-- The `start_frag == 0` body of `read_subchannel_data` (subchannel.rs
lines 312–360): header fields, validation, allocation of the new
`TransferBuffer`. -/
def SubChannel.start_new_transfer (sub : SubChannel) (ext : Ext)
    (single : Bool) (r : Bitbuf.BitStream) :
    Except Err (SubChannel × Bitbuf.BitStream) :=
  let header : Except Err (SubChannel × Bitbuf.BitStream) :=
    if single then
      match sub.read_compress_info r with
      | .error e => .error e
      | .ok (sub1, r1) =>
        match r1.read 18 with
        | none => .error .readErr
        | some (ps, r2) => .ok ({ sub1 with payload_size := ps }, r2)
    else
      match sub.read_file_info ext r with
      | .error e => .error e
      | .ok (sub1, r1) =>
        match sub1.read_compress_info r1 with
        | .error e => .error e
        | .ok (sub2, r2) =>
          match r2.read 26 with
          | none => .error .readErr
          | some (ps, r3) => .ok ({ sub2 with payload_size := ps }, r3)
  match header with
  | .error e => .error e
  | .ok (sub', r') =>
    if sub'.payload_size > MAX_FILE_SIZE then .error .tooLarge
    else if sub'.payload_size = 0 then .error .zeroPayload
    else if (match sub'.compressed with
             | some x => decide (x > MAX_FILE_SIZE)
             | none => false) then .error .compressedTooLarge
    else
      -- a pending transfer is silently dropped ("fragment abort" warning)
      .ok ({ sub' with transfer := some (TransferBuffer.new sub'.payload_size) },
        r')

/-- `SubChannel::read_subchannel_data` (subchannel.rs lines 285–385). -/
def SubChannel.read_subchannel_data (sub : SubChannel) (ext : Ext)
    (reader : Bitbuf.BitStream) :
    Except Err (Option TransferBuffer × SubChannel × Bitbuf.BitStream) :=
  match reader.readBit with
  | none => .error .readErr
  | some (bit, r1) =>
    let single := !bit
    let frags : Except Err (Nat × Nat × Bitbuf.BitStream) :=
      if single then .ok (0, 0, r1)
      else
        match r1.read 18 with
        | none => .error .readErr
        | some (startFrag, r2) =>
          match r2.read 3 with
          | none => .error .readErr
          | some (numFrags, r3) => .ok (startFrag, numFrags, r3)
    match frags with
    | .error e => .error e
    | .ok (startFrag, numFrags, r3) =>
      let started : Except Err (SubChannel × Bitbuf.BitStream) :=
        if startFrag = 0 then sub.start_new_transfer ext single r3
        else .ok (sub, r3)
      match started with
      | .error e => .error e
      | .ok (sub1, r4) =>
        match sub1.transfer with
        | none => .error .noPending
        | some tb =>
          match tb.read_fragments startFrag numFrags r4 with
          | .error e => .error e
          | .ok (complete, tb', r5) =>
            let sub2 := { sub1 with
                           transfer := some tb'
                           in_reliable_state := !sub1.in_reliable_state }
            if complete then
              match sub2.complete_transfer with
              | .error e => .error e
              | .ok (out, sub3) => .ok (some out, sub3, r5)
            else .ok (none, sub2, r5)

end Sub

/-! ### Concrete wire inputs for the subchannel theorems -/

/-- `n` bits of `v`, least-significant first (test-input builder). -/
def mkBits : Nat → Nat → List Nat
  | 0, _ => []
  | n + 1, v => (v % 2) :: mkBits n (v / 2)

/-- Pack an LSB-first bit list into bytes, zero-padding the last byte
(test-input builder). -/
def bitsToBytes : List Nat → List Nat
  | [] => []
  | b0 :: b1 :: b2 :: b3 :: b4 :: b5 :: b6 :: b7 :: rest =>
    (b0 + 2 * b1 + 4 * b2 + 8 * b3 + 16 * b4 + 32 * b5 + 64 * b6 + 128 * b7) ::
      bitsToBytes rest
  | short => [short.foldr (fun b acc => b + 2 * acc) 0]

/-- External behaviours for concrete evaluations: UTF-8 always accepted,
protobuf decoding always failing (messages are then skipped). -/
def extDefault : SeRust.Ext := ⟨fun _ => true, fun _ _ => false⟩

/-- C3 (failing input): a single-block subchannel announcement — wire bits:
single (on-wire 0), compressed 0, 18-bit payload_size = 1 — that is,
bytes `[4, 0, 0]`.  The transfer allocates 1 fragment but
`read_subchannel_data` passes `num_frags = 0` to `read_fragments`, reads
no payload bytes, acknowledges 0 of 1 fragments, and returns `Ok(None)`:
the single-block transfer is **not** completed in its own reception (and no
payload is consumed from the reader, whose position stays at bit 20, right
after the length field), contradicting the claim and §3 of the spec. -/
theorem subchannel_single_block_incomplete :
    Sub.SubChannel.read_subchannel_data Sub.SubChannel.new extDefault
        ⟨[4, 0, 0], 0⟩ =
      .ok (none,
        { file := none, compressed := none, is_replay := false
          payload_size := 1
          transfer := some { buffer := [0], num_fragments := 1
                             num_fragments_ack := 0 }
          in_reliable_state := true },
        ⟨[4, 0, 0], 20⟩) := by decide

/-- C9 reception A: multi-block announcement, start_frag 0, num_frags 0,
not a file, not compressed, 26-bit payload_size = 768 (3 fragments). -/
def c9bytesA : List Nat :=
  bitsToBytes (mkBits 1 1 ++ mkBits 18 0 ++ mkBits 3 0 ++ mkBits 1 0 ++
    mkBits 1 0 ++ mkBits 26 768)

/-- C9 reception B: continuation with start_frag 3, num_frags 0 —
`start + num = 3 = num_fragments`, so the code declares the transfer
complete without ever having received a fragment. -/
def c9bytesB : List Nat := bitsToBytes (mkBits 1 1 ++ mkBits 18 3 ++ mkBits 3 0)

/-- The subchannel state after reception A. -/
def c9subA : Sub.SubChannel :=
  { file := none, compressed := none, is_replay := false, payload_size := 768
    transfer := some ⟨List.replicate 768 0, 3, 0⟩, in_reliable_state := true }

/-- C9 (failing input): after announcement A (payload 768 bytes = 3
fragments, 0 fragments sent), continuation B declares `start_frag = 3`,
`num_frags = 0`; completion fires because `start+num = num_fragments`, and
`read_subchannel_data` reports the transfer complete (`Some`) with
`num_fragments_ack = 0 ≠ 3 = ⌈768/256⌉` — contradicting the claimed
completion invariant (which `TransferBuffer::unwrap_payload` then asserts,
panicking). -/
theorem subchannel_completes_with_missing_fragments :
    (Sub.SubChannel.read_subchannel_data Sub.SubChannel.new extDefault
        ⟨c9bytesA, 0⟩ = .ok (none, c9subA, ⟨c9bytesA, 50⟩)) ∧
    (Sub.SubChannel.read_subchannel_data c9subA extDefault ⟨c9bytesB, 0⟩ =
      .ok (some ⟨List.replicate 768 0, 3, 0⟩,
        { c9subA with transfer := none, in_reliable_state := false },
        ⟨c9bytesB, 22⟩)) ∧
    (768 + Sub.FRAGMENT_SIZE - 1) / Sub.FRAGMENT_SIZE = 3 ∧
    (⟨List.replicate 768 0, 3, 0⟩ : Sub.TransferBuffer).num_fragments_ack ≠ 3 :=
  ⟨by decide, by decide, by decide, by decide⟩

/-! ## channel.rs — the NetChannel -/

namespace Chan

open SeRust (Err Ext)
open Bitbuf (BitStream)
open Sub (SubChannel TransferBuffer)

def NET_HEADER_FLAG_SPLITPACKET : Nat := 0xFFFFFFFE
def NET_HEADER_FLAG_COMPRESSEDPACKET : Nat := 0xFFFFFFFD
def CONNECTIONLESS_HEADER : Nat := 0xFFFFFFFF
def PACKET_CHOKED : Nat := 1 <<< 4
def PACKET_RELIABLE : Nat := 1 <<< 0

/-- `encrypt_buffer_inplace`: ECB over consecutive 8-byte blocks.  The Rust
function asserts `len % 8 == 0`; every call site establishes it, and a
(non-existent) trailing short block would be left untouched here. -/
def encrypt_buffer (sched : List Ice.SubKey) : List Nat → List Nat
  | c0 :: c1 :: c2 :: c3 :: c4 :: c5 :: c6 :: c7 :: rest =>
    Ice.encrypt sched [c0, c1, c2, c3, c4, c5, c6, c7] ++
      encrypt_buffer sched rest
  | short => short

/-- `decrypt_buffer_inplace`. -/
def decrypt_buffer (sched : List Ice.SubKey) : List Nat → List Nat
  | c0 :: c1 :: c2 :: c3 :: c4 :: c5 :: c6 :: c7 :: rest =>
    Ice.decrypt sched [c0, c1, c2, c3, c4, c5, c6, c7] ++
      decrypt_buffer sched rest
  | short => short

/-- `NetChannel::bswap`: LE → BE byte swap of a `u32` (`as u8` = `% 256`). -/
def bswap (le_in : Nat) : Nat :=
  ((le_in >>> 24) % 256) ||| (((le_in >>> 16) % 256) <<< 8) |||
    (((le_in >>> 8) % 256) <<< 16) ||| ((le_in % 256) <<< 24)

/-- The bytes of a byte-aligned `write_long` (32 bits, little-endian). -/
def u32leBytes (v : Nat) : List Nat :=
  [v % 256, (v >>> 8) % 256, (v >>> 16) % 256, (v >>> 24) % 256]

/-- A NetMessage as parsed by `read_messages`: the varint id and size, and
the raw body handed to `NetMessage::bind` (whose protobuf decode is
external). -/
structure NetMsg where
  id : Nat
  size : Nat
  body : List Nat
deriving DecidableEq, Repr

/-- `NetChannelPacketHeader`. -/
structure NetChannelPacketHeader where
  sequence_in : Nat
  sequence_ack : Nat
  flags : Nat
  checksum : Nat
  reliable_state : Nat
  choked : Nat
deriving DecidableEq, Repr

/-- `NetDatagram` (`messages = []` stands for the `None` of the Rust
`Option<Vec<NetMessage>>`; `add_messages` ignores empty batches). -/
structure NetDatagram where
  header : NetChannelPacketHeader
  messages : List NetMsg
deriving DecidableEq, Repr

/-- The interior-mutable part of a `NetChannel` (`Cell`/`RefCell` fields),
which `parse_datagram` can update even when the frame later fails:
`reliable_state` and the two `SubChannel`s. -/
structure MutPart where
  reliable_state : Nat
  subchannels : SubChannel × SubChannel
deriving DecidableEq, Repr

/-- `NetChannel` state (the ICE cipher is carried as its key schedule; the
scratch buffers have no observable state). -/
structure NetChannel where
  sched : List Ice.SubKey
  in_sequence : Nat
  out_sequence : Nat
  out_sequence_ack : Nat
  choked_num : Nat
  reliable_state : Nat
  subchannels : SubChannel × SubChannel
deriving DecidableEq

/-- `NetChannel::get_encryption_key`: `"CSGO"` then 12 shifted samples of
`host_version` (`as u8` = `% 256`). -/
def get_encryption_key (host_version : Nat) : List Nat :=
  [67, 83, 71, 79,
   (host_version >>> 0) % 256, (host_version >>> 8) % 256,
   (host_version >>> 16) % 256, (host_version >>> 24) % 256,
   (host_version >>> 2) % 256, (host_version >>> 10) % 256,
   (host_version >>> 18) % 256, (host_version >>> 26) % 256,
   (host_version >>> 4) % 256, (host_version >>> 12) % 256,
   (host_version >>> 20) % 256, (host_version >>> 28) % 256]

/-- `NetChannel::upgrade`. -/
def NetChannel.upgrade (host_version : Nat) : NetChannel :=
  { sched := Ice.ice_key_set 2 (get_encryption_key host_version)
    in_sequence := 0
    out_sequence := 1
    out_sequence_ack := 0
    choked_num := 0
    reliable_state := 0
    subchannels := (SubChannel.new, SubChannel.new) }

/-- `NetChannel::encrypt_packet`: pad count byte, `pad` zero bytes, the
payload length as a big-endian u32 (`write_long(bswap(len as u32))`), the
payload, all ICE-encrypted. -/
def NetChannel.encrypt_packet (ch : NetChannel) (datagram : List Nat) :
    List Nat :=
  let num_pad_bytes := 8 - (datagram.length + 5) % 8
  encrypt_buffer ch.sched
    ([num_pad_bytes % 256] ++ List.replicate num_pad_bytes 0 ++
      u32leBytes (bswap (datagram.length % 2 ^ 32)) ++ datagram)

/-- `NetChannel::decrypt_packet`: ICE-decrypt, strip `garbage+1` bytes,
read the big-endian `i32` wire size (`as usize` sign-extends), bounds-check
it, and return the payload slice. -/
def NetChannel.decrypt_packet (ch : NetChannel) (datagram : List Nat) :
    Except Err (List Nat) :=
  let decrypted := decrypt_buffer ch.sched datagram
  if decrypted.length = 0 then .error .panicSliceOob
  else
    let garbage := decrypted.getD 0 0
    if garbage ≥ 0x80 ∨ garbage + 1 ≥ decrypted.length then
      .error .invalidGarbage
    else
      let packet := decrypted.drop (garbage + 1)
      if packet.length < 4 then .error .readErr
      else
        let s := (packet.getD 0 0 <<< 24) ||| (packet.getD 1 0 <<< 16) |||
          (packet.getD 2 0 <<< 8) ||| packet.getD 3 0
        let size_on_wire := if s < 2 ^ 31 then s else s + (2 ^ 64 - 2 ^ 32)
        if size_on_wire > packet.length - 4 then .error .invalidWireSize
        else .ok ((packet.drop 4).take size_on_wire)

/-- `read_int32_var` over the bit stream (each group is a `read_char`).
Fuel counts remaining groups; the `count = 5` guard fires first. -/
def readIntVarAux : Nat → BitStream → Nat → Nat → Option (Nat × BitStream)
  | fuel, s, res, count =>
    if count = 5 then none
    else
      match s.read 8 with
      | none => none
      | some (b, s') =>
        let res' := res ||| ((b &&& 0x7F) <<< (7 * count)) % 2 ^ 32
        if b &&& 0x80 = 0 then some (res', s')
        else
          match fuel with
          | 0 => none
          | fuel + 1 => readIntVarAux fuel s' res' (count + 1)

def BitStream.read_int32_var (s : BitStream) : Option (Nat × BitStream) :=
  readIntVarAux 5 s 0 0

/-- The `read_messages` loop (channel.rs lines 626–689).  An error on the
*first* varint of an iteration is EOF and breaks the loop; errors on the
size varint or the body propagate.  A failed `NetMessage::bind` (external
protobuf decode, via `ext.bindOk`) logs and skips the message.  Each
iteration consumes at least one byte, so fuel `data.length + 1` cannot run
out. -/
def read_messagesGo (ext : Ext) :
    Nat → BitStream → List NetMsg → Except Err (List NetMsg × BitStream)
  | 0, _, _ => .error .readErr
  | fuel + 1, s, acc =>
    match BitStream.read_int32_var s with
    | none => .ok (acc, s)
    | some (message_id, s1) =>
      if message_id = 0 then read_messagesGo ext fuel s1 acc
      else
        match BitStream.read_int32_var s1 with
        | none => .error .readErr
        | some (message_size, s2) =>
          match s2.readBytes message_size with
          | none => .error .readErr
          | some (body, s3) =>
            if ext.bindOk message_id body then
              read_messagesGo ext fuel s3
                (acc ++ [{ id := message_id, size := message_size, body := body }])
            else
              read_messagesGo ext fuel s3 acc

def read_messages (ext : Ext) (s : BitStream) :
    Except Err (List NetMsg × BitStream) :=
  read_messagesGo ext (s.data.length + 1) s []

/-- One stream of the reliable-subchannel loop of `parse_datagram`
(channel.rs lines 788–808), plus `process_subchannel_payload` for a
completed transfer: `stype = 0` is the message stream (payload parsed as
NetMessages), `stype = 1` the file stream (`panic!("File transfers not
implemented yet!")`). -/
def procStream (ext : Ext) (stype : Nat) (sub : SubChannel) (r : BitStream) :
    Except Err (SubChannel × BitStream × List NetMsg) :=
  match r.readBit with
  | none => .error .readErr
  | some (updated, r1) =>
    if updated then
      match sub.read_subchannel_data ext r1 with
      | .error e => .error e
      | .ok (obuf, sub', r2) =>
        match obuf with
        | none => .ok (sub', r2, [])
        | some tb =>
          match tb.unwrap_payload with
          | .error e => .error e
          | .ok payload =>
            if stype = 0 then
              match read_messages ext ⟨payload, 0⟩ with
              | .error e => .error e
              | .ok (msgs, _) => .ok (sub', r2, msgs)
            else .error .panicFile
    else .ok (sub, r1, [])

/-- `parse_datagram` after the optional LZSS step: the header fields from
`sequence_ack` on, the sequence check, the reliable-subchannel block, and
the trailing NetMessages.  Returns the result together with the
`Cell`/`RefCell` state (`MutPart`); note the `reliable_state` toggle
happens before the trailing `read_messages`, so a trailing parse error
still keeps the toggle, exactly as the `Cell` write does.  (On an error
*inside* `read_subchannel_data` the Rust `RefCell` may retain a partial
subchannel update that this model discards; no theorem below looks at
subchannel state of an errored frame.) -/
def NetChannel.parse_datagram_body (ext : Ext) (ch : NetChannel)
    (sequence_in : Nat) (r : BitStream) : Except Err NetDatagram × MutPart :=
  let m0 : MutPart := ⟨ch.reliable_state, ch.subchannels⟩
  if sequence_in = CONNECTIONLESS_HEADER then (.error .panicConnectionless, m0)
  else
    match r.read 32 with
    | none => (.error .readErr, m0)
    | some (sequence_ack, r1) =>
      match r1.read 8 with
      | none => (.error .readErr, m0)
      | some (flags, r2) =>
        match r2.read 16 with
        | none => (.error .readErr, m0)
        | some (checksum, r3) =>
          match r3.read 8 with
          | none => (.error .readErr, m0)
          | some (reliable_state, r4) =>
            let choked : Option (Nat × BitStream) :=
              if flags &&& PACKET_CHOKED ≠ 0 then r4.read 8
              else some (0, r4)
            match choked with
            | none => (.error .readErr, m0)
            | some (choked, r5) =>
              if sequence_in ≤ ch.in_sequence then
                (.error .sequenceMismatch, m0)
              else
                let header : NetChannelPacketHeader :=
                  { sequence_in := sequence_in, sequence_ack := sequence_ack
                    flags := flags, checksum := checksum
                    reliable_state := reliable_state, choked := choked }
                if flags &&& PACKET_RELIABLE ≠ 0 then
                  match r5.read 3 with
                  | none => (.error .readErr, m0)
                  | some (subchan_i, r6) =>
                    match procStream ext 0 ch.subchannels.1 r6 with
                    | .error e => (.error e, m0)
                    | .ok (sub0, r7, msgs0) =>
                      match procStream ext 1 ch.subchannels.2 r7 with
                      | .error e =>
                        (.error e, ⟨ch.reliable_state, (sub0, ch.subchannels.2)⟩)
                      | .ok (sub1, r8, msgs1) =>
                        let m1 : MutPart :=
                          ⟨ch.reliable_state ^^^ (1 <<< subchan_i), (sub0, sub1)⟩
                        match read_messages ext r8 with
                        | .error e => (.error e, m1)
                        | .ok (msgs, _) =>
                          (.ok ⟨header, msgs0 ++ msgs1 ++ msgs⟩, m1)
                else
                  match read_messages ext r5 with
                  | .error e => (.error e, m0)
                  | .ok (msgs, _) => (.ok ⟨header, msgs⟩, m0)

/-- `NetChannel::parse_datagram` (channel.rs lines 713–822): read
`sequence_in`, LZSS-decode and re-read it if it is the COMPRESSED
sentinel, then parse the rest of the packet. -/
def NetChannel.parse_datagram (ext : Ext) (ch : NetChannel)
    (packet_data : List Nat) : Except Err NetDatagram × MutPart :=
  let m0 : MutPart := ⟨ch.reliable_state, ch.subchannels⟩
  match (⟨packet_data, 0⟩ : BitStream).read 32 with
  | none => (.error .readErr, m0)
  | some (seq0, r1) =>
    if seq0 = NET_HEADER_FLAG_COMPRESSEDPACKET then
      match Lzss.decode (packet_data.drop 4) with
      | .error e => (.error (.lzss e), m0)
      | .ok decompressed =>
        match (⟨decompressed, 0⟩ : BitStream).read 32 with
        | none => (.error .readErr, m0)
        | some (seq1, r2) => ch.parse_datagram_body ext seq1 r2
    else ch.parse_datagram_body ext seq0 r1

/-- `NetChannel::read_data` on one received datagram (channel.rs lines
339–387): sentinel peek (two `panic!`s), alignment check, ICE decryption,
parse, and — only on success — the `in_sequence`/`out_sequence_ack`
update. -/
def NetChannel.read_data (ext : Ext) (ch : NetChannel) (datagram : List Nat) :
    Except Err NetDatagram × NetChannel :=
  match (⟨datagram, 0⟩ : BitStream).read 32 with
  | none => (.error .readErr, ch)
  | some (header, _) =>
    if header = NET_HEADER_FLAG_SPLITPACKET then (.error .panicSplit, ch)
    else if header = CONNECTIONLESS_HEADER then (.error .panicConnectionless, ch)
    else if datagram.length % 8 ≠ 0 then (.error .alignment, ch)
    else
      match ch.decrypt_packet datagram with
      | .error e => (.error e, ch)
      | .ok packet_data =>
        match ch.parse_datagram ext packet_data with
        | (.error e, m) =>
          (.error e, { ch with reliable_state := m.reliable_state
                               subchannels := m.subchannels })
        | (.ok dg, m) =>
          (.ok dg, { ch with reliable_state := m.reliable_state
                             subchannels := m.subchannels
                             in_sequence := dg.header.sequence_in
                             out_sequence_ack := dg.header.sequence_ack })

end Chan

namespace Bitbuf

theorem readBitsVal_lt (data : List Nat) : ∀ p n, readBitsVal data p n < 2 ^ n
  | _, 0 => by simp [readBitsVal]
  | p, n + 1 => by
    rw [readBitsVal]
    have h1 : bitAt data p < 2 := by
      have : bitAt data p ≤ 1 := by
        rw [bitAt]
        have := Nat.and_le_right (n := data.getD (p / 8) 0 >>> (p % 8)) (m := 1)
        omega
      omega
    have h2 : readBitsVal data (p + 1) n < 2 ^ n := readBitsVal_lt data (p + 1) n
    rw [Nat.pow_succ]
    omega

theorem read_lt {s : BitStream} {n v : Nat} {s' : BitStream}
    (h : s.read n = some (v, s')) : v < 2 ^ n := by
  rw [BitStream.read] at h
  split at h
  · cases h
    exact readBitsVal_lt s.data s.pos n
  · cases h

end Bitbuf

namespace Ice

theorem outBytes_length (l r : Nat) : (outBytes l r).length = 8 := rfl

theorem encrypt_length (sched : List SubKey) (p : List Nat) :
    (encrypt sched p).length = 8 := rfl

end Ice

namespace Chan

theorem encrypt_buffer_length (sched : List Ice.SubKey) (l : List Nat) :
    (encrypt_buffer sched l).length = l.length := by
  match l with
  | c0 :: c1 :: c2 :: c3 :: c4 :: c5 :: c6 :: c7 :: rest =>
    rw [encrypt_buffer, List.length_append, Ice.encrypt_length,
      encrypt_buffer_length sched rest]
    simp only [List.length_cons, List.length_nil]
    omega
  | [] => rfl
  | [_] => rfl
  | [_, _] => rfl
  | [_, _, _] => rfl
  | [_, _, _, _] => rfl
  | [_, _, _, _, _] => rfl
  | [_, _, _, _, _, _] => rfl
  | [_, _, _, _, _, _, _] => rfl
termination_by l.length

theorem decrypt_buffer_length (sched : List Ice.SubKey) (l : List Nat) :
    (decrypt_buffer sched l).length = l.length := by
  match l with
  | c0 :: c1 :: c2 :: c3 :: c4 :: c5 :: c6 :: c7 :: rest =>
    rw [decrypt_buffer, List.length_append,
      decrypt_buffer_length sched rest]
    rw [show (Ice.decrypt sched [c0, c1, c2, c3, c4, c5, c6, c7]).length = 8
      from rfl]
    simp only [List.length_cons, List.length_nil]
    omega
  | [] => rfl
  | [_] => rfl
  | [_, _] => rfl
  | [_, _, _] => rfl
  | [_, _, _, _] => rfl
  | [_, _, _, _, _] => rfl
  | [_, _, _, _, _, _] => rfl
  | [_, _, _, _, _, _, _] => rfl
termination_by l.length

end Chan

/-- C6: For every payload of length L handed to the NetChannel's envelope
builder (`encrypt_packet`, used by `write_datagram` for every outbound
frame), the emitted encrypted frame has length `L + pad + 5` with
`pad = 8 - ((L+5) mod 8)`, and that total is a multiple of 8. -/
theorem netchannel_envelope_length (ch : Chan.NetChannel) (datagram : List Nat) :
    (ch.encrypt_packet datagram).length =
      datagram.length + (8 - (datagram.length + 5) % 8) + 5 ∧
    (ch.encrypt_packet datagram).length % 8 = 0 := by
  have h : (ch.encrypt_packet datagram).length =
      datagram.length + (8 - (datagram.length + 5) % 8) + 5 := by
    rw [Chan.NetChannel.encrypt_packet]
    rw [Chan.encrypt_buffer_length]
    simp only [List.length_append, List.length_cons, List.length_nil,
      List.length_replicate, Chan.u32leBytes, List.length_cons]
    omega
  refine ⟨h, ?_⟩
  rw [h]
  omega

/-- C10: Whenever `NetChannel::read_data` returns an error, the channel's
`in_sequence` and `out_sequence_ack` are unchanged — they are assigned
only after the whole datagram has parsed successfully (the interior-mutable
`reliable_state`/subchannel fields may have advanced). -/
theorem read_data_error_preserves_sequences (ext : SeRust.Ext)
    (ch : Chan.NetChannel) (datagram : List Nat) (e : SeRust.Err)
    (ch' : Chan.NetChannel)
    (h : Chan.NetChannel.read_data ext ch datagram = (.error e, ch')) :
    ch'.in_sequence = ch.in_sequence ∧
      ch'.out_sequence_ack = ch.out_sequence_ack := by
  rw [Chan.NetChannel.read_data] at h
  repeat' split at h
  all_goals simp only [Prod.mk.injEq] at h
  all_goals obtain ⟨h1, h2⟩ := h
  all_goals subst h2
  all_goals first
    | exact ⟨rfl, rfl⟩
    | exact absurd h1 (by simp)

/-- C10 witness: a 4-byte datagram fails the `len % 8` alignment check and
leaves both sequence numbers at their initial values. -/
theorem read_data_error_preserves_sequences_witness :
    Chan.NetChannel.read_data extDefault (Chan.NetChannel.upgrade 0) [0, 0, 0, 0]
        = (.error .alignment, Chan.NetChannel.upgrade 0) ∧
    (Chan.NetChannel.upgrade 0).in_sequence =
        (Chan.NetChannel.upgrade 0).in_sequence ∧
      (Chan.NetChannel.upgrade 0).out_sequence_ack =
        (Chan.NetChannel.upgrade 0).out_sequence_ack :=
  ⟨by decide,
    read_data_error_preserves_sequences extDefault (Chan.NetChannel.upgrade 0)
      [0, 0, 0, 0] .alignment (Chan.NetChannel.upgrade 0) (by decide)⟩

/-- Facts available when `parse_datagram_body` accepts a frame: the
returned header carries the parsed `sequence_in`, the sequence check
passed, and the reliable_state/subchannel outcome per the RELIABLE flag. -/
theorem parse_body_ok_props (ext : SeRust.Ext) (ch : Chan.NetChannel)
    (seq : Nat) (r : Bitbuf.BitStream) (dg : Chan.NetDatagram)
    (m : Chan.MutPart)
    (h : Chan.NetChannel.parse_datagram_body ext ch seq r = (.ok dg, m)) :
    dg.header.sequence_in = seq ∧ ch.in_sequence < seq ∧
    (dg.header.flags &&& Chan.PACKET_RELIABLE = 0 →
      m.reliable_state = ch.reliable_state ∧ m.subchannels = ch.subchannels) ∧
    (dg.header.flags &&& Chan.PACKET_RELIABLE ≠ 0 →
      ∃ s1 s2 i, Bitbuf.BitStream.read s1 3 = some (i, s2) ∧
        m.reliable_state = ch.reliable_state ^^^ (1 <<< i)) := by
  simp only [Chan.NetChannel.parse_datagram_body] at h
  repeat' split at h
  all_goals simp only [Prod.mk.injEq, Except.ok.injEq] at h
  all_goals try exact Except.noConfusion h.1
  all_goals obtain ⟨h1, h2⟩ := h
  all_goals subst h1
  all_goals subst h2
  all_goals first
    | exact ⟨rfl, by omega, fun _ => ⟨rfl, rfl⟩,
        fun hf => absurd hf (by assumption)⟩
    | exact ⟨rfl, by omega, fun h0 => absurd h0 (by assumption),
        fun _ => ⟨_, _, _, by assumption, rfl⟩⟩

/-- The same facts at the `parse_datagram` level (through the optional
LZSS step), with the subchannel index bound made explicit. -/
theorem parse_ok_props (ext : SeRust.Ext) (ch : Chan.NetChannel)
    (pd : List Nat) (dg : Chan.NetDatagram) (m : Chan.MutPart)
    (h : Chan.NetChannel.parse_datagram ext ch pd = (.ok dg, m)) :
    ch.in_sequence < dg.header.sequence_in ∧
    (dg.header.flags &&& Chan.PACKET_RELIABLE = 0 →
      m.reliable_state = ch.reliable_state ∧ m.subchannels = ch.subchannels) ∧
    (dg.header.flags &&& Chan.PACKET_RELIABLE ≠ 0 →
      ∃ i, i < 8 ∧ m.reliable_state = ch.reliable_state ^^^ (1 <<< i)) := by
  simp only [Chan.NetChannel.parse_datagram] at h
  repeat' split at h
  all_goals try (simp only [Prod.mk.injEq] at h; exact Except.noConfusion h.1)
  all_goals
    obtain ⟨hs, hlt, hnr, hr⟩ := parse_body_ok_props _ _ _ _ _ _ h
  all_goals refine ⟨by omega, hnr, fun hf => ?_⟩
  all_goals obtain ⟨s1, s2, i, hread, heq⟩ := hr hf
  all_goals have hib := Bitbuf.read_lt hread
  all_goals norm_num at hib
  all_goals exact ⟨i, hib, heq⟩

/-- C2: every datagram accepted by `read_data` strictly increases the
stored `in_sequence`; and a frame whose parsed `sequence_in` is ≤ the
current `in_sequence` is rejected by `parse_datagram` with an error
("Sequence number mismatch"). -/
theorem netchannel_sequence_monotonic :
    (∀ ext ch datagram dg ch',
        Chan.NetChannel.read_data ext ch datagram = (.ok dg, ch') →
        ch.in_sequence < ch'.in_sequence) ∧
    (∀ ext ch seq r, seq ≤ ch.in_sequence →
        (Chan.NetChannel.parse_datagram_body ext ch seq r).1.isOk = false) := by
  constructor
  · intro ext ch datagram dg ch' h
    rw [Chan.NetChannel.read_data] at h
    repeat' split at h
    all_goals simp only [Prod.mk.injEq, Except.ok.injEq] at h
    all_goals try exact Except.noConfusion h.1
    obtain ⟨h1, h2⟩ := h
    subst h1
    subst h2
    exact (parse_ok_props _ _ _ _ _ (by assumption)).1
  · intro ext ch seq r hle
    simp only [Chan.NetChannel.parse_datagram_body]
    repeat' split
    all_goals try rfl
    all_goals exact absurd hle (by assumption)

/-- A 12-byte plaintext NetChannel frame: `sequence_in = 1`,
`sequence_ack = 0`, flags 0, checksum 0, reliable_state 0, no messages. -/
def c2frame : List Nat := [1, 0, 0, 0, 0, 0, 0, 0, 0, 0, 0, 0]

/-- That frame wrapped in the ICE envelope by the channel itself. -/
def c2datagram : List Nat := (Chan.NetChannel.upgrade 0).encrypt_packet c2frame

/-- C2 witness: receiving `c2datagram` on a fresh channel raises
`in_sequence` from 0 to 1, and a frame with `sequence_in = 0` against
`in_sequence = 0` is rejected. -/
theorem netchannel_sequence_monotonic_witness :
    ((Chan.NetChannel.upgrade 0).in_sequence <
      ({ Chan.NetChannel.upgrade 0 with in_sequence := 1 } :
        Chan.NetChannel).in_sequence) ∧
    (Chan.NetChannel.parse_datagram_body extDefault (Chan.NetChannel.upgrade 0)
        0 ⟨[], 0⟩).1.isOk = false :=
  ⟨netchannel_sequence_monotonic.1 extDefault (Chan.NetChannel.upgrade 0)
      c2datagram ⟨⟨1, 0, 0, 0, 0, 0⟩, []⟩
      { Chan.NetChannel.upgrade 0 with in_sequence := 1 } (by decide),
    netchannel_sequence_monotonic.2 extDefault (Chan.NetChannel.upgrade 0) 0
      ⟨[], 0⟩ (by decide)⟩

/-- C4 (counterexample): a datagram whose first 4 bytes read as the SPLIT
sentinel `0xFFFFFFFE` does **not** abort only the current frame with a
recoverable error — `read_data` hits `panic!("Split packets not supported
yet!")` (modelled as the session-fatal `Err.panicSplit`), so the session
does not survive to further receives, contradicting the claim. -/
theorem netchannel_split_sentinel_is_panic :
    Chan.NetChannel.read_data extDefault (Chan.NetChannel.upgrade 0)
        [0xFE, 0xFF, 0xFF, 0xFF] =
      (.error .panicSplit, Chan.NetChannel.upgrade 0) := by decide

/-- C4 (amended): a received datagram whose first 4 bytes equal
`0xFFFFFFFE` (SPLIT) or `0xFFFFFFFF` (CONNECTIONLESS) makes `read_data`
panic (`panic!`, killing the session), rather than returning a per-frame
error; no channel state changes. -/
theorem netchannel_sentinel_headers_panic (ext : SeRust.Ext)
    (ch : Chan.NetChannel) (data : List Nat) (v : Nat) (r : Bitbuf.BitStream)
    (h : (⟨data, 0⟩ : Bitbuf.BitStream).read 32 = some (v, r))
    (hv : v = Chan.NET_HEADER_FLAG_SPLITPACKET ∨
       v = Chan.CONNECTIONLESS_HEADER) :
    (Chan.NetChannel.read_data ext ch data).1 =
      .error (if v = Chan.NET_HEADER_FLAG_SPLITPACKET then .panicSplit
        else .panicConnectionless) ∧
    (Chan.NetChannel.read_data ext ch data).2 = ch := by
  rcases hv with hv | hv <;> subst hv
  · rw [Chan.NetChannel.read_data, h]
    simp
  · rw [Chan.NetChannel.read_data, h]
    simp [Chan.NET_HEADER_FLAG_SPLITPACKET, Chan.CONNECTIONLESS_HEADER]

/-- C4 witness: the amended theorem at the concrete SPLIT datagram. -/
theorem netchannel_sentinel_headers_panic_witness :
    (Chan.NetChannel.read_data extDefault (Chan.NetChannel.upgrade 0)
        [0xFE, 0xFF, 0xFF, 0xFF]).1 =
      .error (if (0xFFFFFFFE : Nat) = Chan.NET_HEADER_FLAG_SPLITPACKET
        then .panicSplit else .panicConnectionless) ∧
    (Chan.NetChannel.read_data extDefault (Chan.NetChannel.upgrade 0)
        [0xFE, 0xFF, 0xFF, 0xFF]).2 = Chan.NetChannel.upgrade 0 :=
  netchannel_sentinel_headers_panic extDefault (Chan.NetChannel.upgrade 0)
    [0xFE, 0xFF, 0xFF, 0xFF] 0xFFFFFFFE ⟨[0xFE, 0xFF, 0xFF, 0xFF], 32⟩
    (by decide) (Or.inl (by decide))

/-- C5 packet: header `sequence_in = 1`, flags RELIABLE, then the reliable
section declaring subchannel index **1**, stream 0 updated with a
multi-block announcement (start 0, 0 fragments, payload 512), stream 1 not
updated. -/
def c5packet : List Nat :=
  [1, 0, 0, 0, 0, 0, 0, 0, 1, 0, 0, 0] ++
    bitsToBytes (mkBits 3 1 ++ mkBits 1 1 ++ mkBits 1 1 ++ mkBits 18 0 ++
      mkBits 3 0 ++ mkBits 1 0 ++ mkBits 1 0 ++ mkBits 26 512 ++ mkBits 1 0)

/-- The subchannel object that actually receives the stream-0 data of
`c5packet`. -/
def c5sub0 : Sub.SubChannel :=
  { file := none, compressed := none, is_replay := false, payload_size := 512
    transfer := some ⟨List.replicate 512 0, 2, 0⟩, in_reliable_state := true }

/-- C5 (counterexample): `c5packet` declares subchannel index 1 (the
receiver duly toggles `reliable_state` bit `1<<1`, giving 2), yet the
stream-0 fragment data is handed to `subchannels[0]` — the array is
indexed by the *stream* number `stream_i`, not by the declared index — so
subchannel slot 1 is left exactly as it was (`SubChannel::new`) and the
transfer state appears in slot 0, refuting "its fragment data is handed to
subchannel slot i". -/
theorem netchannel_reliable_data_goes_to_stream_slot :
    Chan.NetChannel.parse_datagram extDefault (Chan.NetChannel.upgrade 0)
        c5packet =
      (.ok ⟨⟨1, 0, 1, 0, 0, 0⟩, []⟩,
        ⟨2, (c5sub0, Sub.SubChannel.new)⟩) := by decide

/-- C5 (amended): in a successfully parsed RELIABLE packet, each updated
stream's data is handed to that stream's own `SubChannel` object
(`subchannels[stream_i]`); the declared subchannel index `i` is used only
for acknowledgement: after both streams are processed, the receiver
toggles exactly bit `1 << i` (i < 8) of its `reliable_state`.  Without the
RELIABLE flag, `reliable_state` and both subchannels are untouched. -/
theorem netchannel_reliable_toggle (ext : SeRust.Ext) (ch : Chan.NetChannel)
    (data : List Nat) (dg : Chan.NetDatagram) (m : Chan.MutPart)
    (h : Chan.NetChannel.parse_datagram ext ch data = (.ok dg, m)) :
    (dg.header.flags &&& Chan.PACKET_RELIABLE ≠ 0 →
      ∃ i, i < 8 ∧ m.reliable_state = ch.reliable_state ^^^ (1 <<< i)) ∧
    (dg.header.flags &&& Chan.PACKET_RELIABLE = 0 →
      m.reliable_state = ch.reliable_state ∧ m.subchannels = ch.subchannels) :=
  ⟨(parse_ok_props ext ch data dg m h).2.2, (parse_ok_props ext ch data dg m h).2.1⟩

/-- C5 witness: the amended theorem at `c5packet` (toggled bit is
`1 << 1`, the declared index). -/
theorem netchannel_reliable_toggle_witness :
    ((⟨⟨1, 0, 1, 0, 0, 0⟩, []⟩ : Chan.NetDatagram).header.flags &&&
        Chan.PACKET_RELIABLE ≠ 0 →
      ∃ i, i < 8 ∧
        (⟨2, (c5sub0, Sub.SubChannel.new)⟩ : Chan.MutPart).reliable_state =
          (Chan.NetChannel.upgrade 0).reliable_state ^^^ (1 <<< i)) ∧
    ((⟨⟨1, 0, 1, 0, 0, 0⟩, []⟩ : Chan.NetDatagram).header.flags &&&
        Chan.PACKET_RELIABLE = 0 →
      (⟨2, (c5sub0, Sub.SubChannel.new)⟩ : Chan.MutPart).reliable_state =
          (Chan.NetChannel.upgrade 0).reliable_state ∧
        (⟨2, (c5sub0, Sub.SubChannel.new)⟩ : Chan.MutPart).subchannels =
          (Chan.NetChannel.upgrade 0).subchannels) :=
  netchannel_reliable_toggle extDefault (Chan.NetChannel.upgrade 0) c5packet
    ⟨⟨1, 0, 1, 0, 0, 0⟩, []⟩ ⟨2, (c5sub0, Sub.SubChannel.new)⟩ (by decide)
